import Mathlib

/-!
Verification of the numeric core of the steelDeoxDesulf101 repository.

Two independent pipelines are embedded:

* `Deox`: the aluminium deoxidation equilibrium solver of `src/en/Deox.py`
  (temperature-dependent coefficient functions, the log-form equilibrium
  residual `Al_O_eqs`, the `fsolve` wrapper `calc_pure`, and the curve
  sweep `data_deox` with its bound/NaN policy).
* `EVGumbel`: the Gumbel extreme-value fitter of `src/es/EVGumbel-ES.py`
  (empirical CDF, method-of-moments estimator, standard-error model, and
  the Gumbel-plot geometry construction).

Python floats are modelled as real numbers (`ℝ`); sample measurements,
which only ever get sorted and turned into rational plotting positions,
are modelled as rationals (`ℚ`) so the sort is decidable.  `ValueError`
raising code is modelled with `Except`, the error payload carrying the
offending value and the valid set named by the message.  The external
root finder `scipy.optimize.fsolve` is an arbitrary parameter: no claim
depends on what it returns, only on how its result is post-processed.
NaN propagation (pandas `mean`/`std` on too-small samples) is modelled
with `Option ℝ`, `none` standing for NaN.
-/

namespace Deox

noncomputable section

/-- Model of `np.log10`, base-ten logarithm. -/
def log10 (x : ℝ) : ℝ := Real.logb 10 x

/-- Logarithm of the Al-O equilibrium constant, `logK_Al` in `Deox.py`. -/
def logK_Al (T : ℝ) : ℝ := -45300 / T + 11.62

/-- First order interaction coefficient `e_AlAl`. -/
def e_AlAl (T : ℝ) : ℝ := 80.5 / T

/-- First order interaction coefficient `e_AlO`. -/
def e_AlO (T : ℝ) : ℝ := 3.21 - 9720 / T

/-- First order interaction coefficient `e_OAl`. -/
def e_OAl (T : ℝ) : ℝ := 1.90 - 5750 / T

/-- First order interaction coefficient `e_OO`. -/
def e_OO (T : ℝ) : ℝ := 0.76 - 1750 / T

/-- Second order interaction coefficient `r_AlAl`. -/
def r_AlAl (_T : ℝ) : ℝ := 0

/-- Second order interaction coefficient `r_AlO`. -/
def r_AlO (T : ℝ) : ℝ := -107 - 2.75e5 / T

/-- Second order interaction coefficient `r_OAl`. -/
def r_OAl (T : ℝ) : ℝ := 0.0033 - 25 / T

/-- Second order interaction coefficient `r_OO`. -/
def r_OO (_T : ℝ) : ℝ := 0

/-- Second order cross interaction coefficient `r_AlAlO`. -/
def r_AlAlO (T : ℝ) : ℝ := -0.021 - 13.78 / T

/-- Second order cross interaction coefficient `r_OAlO`. -/
def r_OAlO (T : ℝ) : ℝ := 127.3 + 3.273e5 / T

/-- The `ValueError` payload raised for an invalid refinement order: the
offending value together with the valid set `[0, 1, 2]` named by the
f-string message. -/
def OrderError : Type := ℤ × List ℤ

/-- Residual of the thermodynamic equilibrium equation, `Al_O_eqs` in
`Deox.py`.  The parameter tuple `(pctAl, T, aAl2O3, order)` mirrors the
Python `*params` unpacking.  `order = 0` uses no interaction
coefficients, `order = 1` the first-order ones, `order = 2` additionally
the second-order ones; any other order raises `ValueError`, modelled as
`Except.error` carrying the offending value and the valid set. -/
def Al_O_eqs (pctO : ℝ) (params : ℝ × ℝ × ℝ × ℤ) : Except OrderError ℝ :=
  match params with
  | (pctAl, T, aAl2O3, order) =>
    let log_K := logK_Al T
    let log_aAl2O3 := log10 aAl2O3
    let coeffs : Except OrderError (ℝ × ℝ) :=
      if order = 0 then
        .ok (0, 0)
      else if order = 1 ∨ order = 2 then
        let lin_fAl := e_AlAl T * pctAl + e_AlO T * pctO
        let lin_fO := e_OAl T * pctAl + e_OO T * pctO
        if order = 2 then
          .ok (lin_fAl + (r_AlAl T * pctAl ^ 2 + r_AlO T * pctO ^ 2 +
                 r_AlAlO T * pctAl * pctO),
               lin_fO + (r_OAl T * pctAl ^ 2 + r_OO T * pctO ^ 2 +
                 r_OAlO T * pctAl * pctO))
        else
          .ok (lin_fAl, lin_fO)
      else
        .error (order, [0, 1, 2])
    coeffs.map fun lf =>
      2 * lf.1 + 2 * log10 pctAl + 3 * lf.2 + 3 * log10 pctO -
        log_aAl2O3 - log_K

/-- The type of the residual function handed to the root finder. -/
def ResidualFn : Type := ℝ → ℝ × ℝ × ℝ × ℤ → Except OrderError ℝ

/-- The type of the external root finder `scipy.optimize.fsolve`:
objective function, initial guess, extra arguments, returned root.  It
is kept abstract: the claims only concern what the wrappers do around
it. -/
def SolverFn : Type := ResidualFn → ℝ → ℝ × ℝ × ℝ × ℤ → ℝ

/-- Embedding of `calc_pure` of `Deox.py`: wraps one `fsolve` call, after validating
the refinement order against the valid set `[0, 1, 2]`. -/
def calc_pure (fsolve : SolverFn) (func : ResidualFn)
    (pctMe T aInc x0 : ℝ) (order : ℤ) : Except OrderError ℝ :=
  let params := (pctMe, T, aInc, order)
  let valid : List ℤ := [0, 1, 2]
  if order ∈ valid then .ok (fsolve func x0 params)
  else .error (order, valid)

/-- The accumulation loop of `data_deox`: one `calc_pure` call per
aluminium content, results appended in order; a raised `ValueError`
aborts the loop (exception propagation). -/
def deoxLoop (fsolve : SolverFn) (func : ResidualFn)
    (T a_MxOy x0 : ℝ) (order : ℤ) : List ℝ → Except OrderError (List ℝ)
  | [] => .ok []
  | pct_M :: rest =>
    (calc_pure fsolve func pct_M T a_MxOy x0 order).bind fun wO =>
      (deoxLoop fsolve func T a_MxOy x0 order rest).map fun tail =>
        wO :: tail

/-- Embedding of `data_deox` of `Deox.py`: sweep the aluminium grid, then bound the
resulting oxygen curve: entries strictly above `bound` are replaced by
`np.NaN` (modelled as `none`), all others kept unchanged (`some`). -/
def data_deox (fsolve : SolverFn) (func : ResidualFn) (T : ℝ)
    (pcts_M : List ℝ) (a_MxOy x0 : ℝ) (order : ℤ) (bound : ℝ) :
    Except OrderError (List ℝ × List (Option ℝ)) :=
  (deoxLoop fsolve func T a_MxOy x0 order pcts_M).map fun pcts_O =>
    (pcts_M, pcts_O.map fun wO => if bound < wO then none else some wO)

end

end Deox


namespace EVGumbel

/-- Embedding of `eCDF` of `EVGumbel-ES.py`: sort the `Y` measurements ascending
(pandas `sort_values`, a stable ascending sort) and attach the Weibull
plotting positions `np.linspace(1, N, N) / (N + 1) = [1/(N+1), ..., N/(N+1)]`.
Measurements are modelled as rationals so the sort is decidable. -/
def eCDF (ys : List ℚ) : List ℚ × List ℚ :=
  let Ysorted := ys.insertionSort (· ≤ ·)
  let Nvalues := Ysorted.length
  (Ysorted, (List.range Nvalues).map fun i : ℕ =>
    ((i : ℚ) + 1) / ((Nvalues : ℚ) + 1))

noncomputable section

/-- Model of pandas `Series.mean`: NaN (`none`) on an empty series,
otherwise the arithmetic mean. -/
def pmean (ys : List ℚ) : Option ℝ :=
  if ys.length = 0 then none
  else some ((ys.map fun x => (x : ℝ)).sum / (ys.length : ℝ))

/-- Model of pandas `Series.std` (default `ddof = 1`, Bessel's
correction): NaN (`none`) for fewer than two values, otherwise
`√(Σ (xᵢ - x̄)² / (N - 1))`. -/
def pstd (ys : List ℚ) : Option ℝ :=
  if ys.length < 2 then none
  else some (Real.sqrt
    ((ys.map fun x =>
        ((x : ℝ) - (ys.map fun z => (z : ℝ)).sum / (ys.length : ℝ)) ^ 2).sum /
      ((ys.length : ℝ) - 1)))

/-- The sample mean value (the `some` payload of `pmean`). -/
def meanVal (ys : List ℚ) : ℝ :=
  (ys.map fun x => (x : ℝ)).sum / (ys.length : ℝ)

/-- The Bessel-corrected sample standard deviation value (the `some`
payload of `pstd`). -/
def stdVal (ys : List ℚ) : ℝ :=
  Real.sqrt
    ((ys.map fun x => ((x : ℝ) - meanVal ys) ^ 2).sum / ((ys.length : ℝ) - 1))

/-- Embedding of `fitEVmom` of `EVGumbel-ES.py`: method-of-moments Gumbel fit,
`delta = std · √6 / π`, `lamb = mean - 0.5772 · delta`, returned as
`(lamb, delta)`.  The code performs no sample-size check: a NaN standard
deviation (N < 2) propagates into both returned parameters; NaN is
modelled as `none`. -/
def fitEVmom (ys : List ℚ) : Option ℝ × Option ℝ :=
  let Ymean := pmean ys
  let Ystd := pstd ys
  let delta := Ystd.map fun s => s * Real.sqrt 6 / Real.pi
  let lamb := Ymean.bind fun m => delta.map fun d => m - 0.5772 * d
  (lamb, delta)

/-- Embedding of `calcSE` of `EVGumbel-ES.py`: asymptotic standard error of the size
estimate, `SE = delta · √((1.109 + 0.514 y + 0.608 y²) / N)` with the
reduced variable `y = (x - lamb) / delta`. -/
def calcSE (x lamb delta : ℝ) (N : ℕ) : ℝ :=
  let y := (x - lamb) / delta
  delta * Real.sqrt ((1.109 + 0.514 * y + 0.608 * y ^ 2) / (N : ℝ))

/-- Embedding of `calcRedVar` of `EVGumbel-ES.py`: the linearized (reduced) variable
`y = -ln(-ln F)`. -/
def calcRedVar (F : ℝ) : ℝ := -1.0 * Real.log (-Real.log F)

/-- Embedding of `gumbelPlot` of `EVGumbel-ES.py`, its numeric part (the plotting
calls are presentation only).  Python local-variable semantics are
modelled explicitly: the local `lamb` is assigned only inside the
`if ((gamma==None) or (delta==None))` branch (by the `fitEVml` call,
kept abstract as `mlfit`), while `delta` is also bound as a parameter;
reading an unassigned local raises `UnboundLocalError`, modelled as
`Except.error`.  On success the produced geometry is
`(xSorted, redVar, xML, xmin, xmax)`. -/
def gumbelPlotRun (ys : List ℚ) (gamma delta0 : Option ℝ)
    (mlfit : List ℚ → ℝ × ℝ) :
    Except String (List ℝ × List ℝ × List ℝ × List ℝ × List ℝ) :=
  let xSorted := (eCDF ys).1.map fun q : ℚ => (q : ℝ)
  let ecdf := (eCDF ys).2
  let redVar := ecdf.map fun p : ℚ => -1.0 * Real.log (-Real.log (p : ℝ))
  let fitted : Option ℝ × Option ℝ :=
    if gamma.isNone || delta0.isNone then
      let fit := mlfit ys
      (some fit.1, some fit.2)
    else (none, delta0)
  match fitted with
  | (some lamb, some delta) =>
    let xML := redVar.map fun y => delta * y + lamb
    let N := ys.length
    let SE := xML.map fun x => calcSE x lamb delta N
    let xmin := List.zipWith (fun x s => x - 2.0 * s) xML SE
    let xmax := List.zipWith (fun x s => x + 2.0 * s) xML SE
    .ok (xSorted, redVar, xML, xmin, xmax)
  | (none, _) =>
    .error "UnboundLocalError: local variable lamb referenced before assignment"
  | (_, none) =>
    .error "UnboundLocalError: local variable delta referenced before assignment"

end

end EVGumbel

namespace Deox

/-- C5: for every temperature `T > 0`, `logK_Al T = -45300 / T + 11.62`
exactly, and every interaction-coefficient function is the stated pure
closed-form function of the temperature alone (no state: each is a Lean
function of `T` and nothing else). -/
theorem coefficient_formulas (T : ℝ) (hT : 0 < T) :
    logK_Al T = -45300 / T + 11.62 ∧
    e_AlAl T = 80.5 / T ∧
    e_AlO T = 3.21 - 9720 / T ∧
    e_OAl T = 1.90 - 5750 / T ∧
    e_OO T = 0.76 - 1750 / T ∧
    r_AlAl T = 0 ∧
    r_AlO T = -107 - 275000 / T ∧
    r_OAl T = 0.0033 - 25 / T ∧
    r_OO T = 0 ∧
    r_AlAlO T = -0.021 - 13.78 / T ∧
    r_OAlO T = 127.3 + 327300 / T := by
  refine ⟨rfl, rfl, rfl, rfl, rfl, rfl, ?_, rfl, rfl, rfl, ?_⟩
  · norm_num [r_AlO]
  · norm_num [r_OAlO]

/-- Witness for `coefficient_formulas` at the working temperature
`T = 1873 K`. -/
theorem coefficient_formulas_witness :
    logK_Al 1873 = -45300 / 1873 + 11.62 ∧
    e_AlAl 1873 = 80.5 / 1873 ∧
    e_AlO 1873 = 3.21 - 9720 / 1873 ∧
    e_OAl 1873 = 1.90 - 5750 / 1873 ∧
    e_OO 1873 = 0.76 - 1750 / 1873 ∧
    r_AlAl 1873 = 0 ∧
    r_AlO 1873 = -107 - 275000 / 1873 ∧
    r_OAl 1873 = 0.0033 - 25 / 1873 ∧
    r_OO 1873 = 0 ∧
    r_AlAlO 1873 = -0.021 - 13.78 / 1873 ∧
    r_OAlO 1873 = 127.3 + 327300 / 1873 :=
  coefficient_formulas 1873 (by norm_num)

/-- C1: for positive contents, positive temperature and alumina activity
in `(0, 1]`, the order-0 residual is exactly
`2·log10 pctAl + 3·log10 pctO - log10 aAl2O3 - logK_Al T`: no
interaction-coefficient function enters (`log_fAl = log_fO = 0`). -/
theorem Al_O_eqs_order_zero (pctAl pctO T aAl2O3 : ℝ)
    (hAl : 0 < pctAl) (hO : 0 < pctO) (hT : 0 < T)
    (ha0 : 0 < aAl2O3) (ha1 : aAl2O3 ≤ 1) :
    Al_O_eqs pctO (pctAl, T, aAl2O3, 0) =
      .ok (2 * log10 pctAl + 3 * log10 pctO - log10 aAl2O3 - logK_Al T) := by
  show Except.ok (2 * (0:ℝ) + 2 * log10 pctAl + 3 * 0 + 3 * log10 pctO -
      log10 aAl2O3 - logK_Al T) = _
  norm_num

/-- Witness for `Al_O_eqs_order_zero` at
`pctAl = 1, pctO = 1, T = 1873, aAl2O3 = 1`. -/
theorem Al_O_eqs_order_zero_witness :
    Al_O_eqs 1 (1, 1873, 1, 0) =
      .ok (2 * log10 1 + 3 * log10 1 - log10 1 - logK_Al 1873) :=
  Al_O_eqs_order_zero 1 1 1873 1 (by norm_num) (by norm_num) (by norm_num)
    (by norm_num) (by norm_num)

/-- C2: any refinement order outside `{0, 1, 2}` makes both `Al_O_eqs`
and `calc_pure` raise the validation error naming the offending value
and the valid set `[0, 1, 2]`; `calc_pure` raises it whatever the root
finder is, so no root is ever computed for an invalid order (and the
error carries no residual value either). -/
theorem invalid_order_rejected (pctO pctAl T aAl2O3 : ℝ) (order : ℤ)
    (h0 : order ≠ 0) (h1 : order ≠ 1) (h2 : order ≠ 2) :
    Al_O_eqs pctO (pctAl, T, aAl2O3, order) = .error (order, [0, 1, 2]) ∧
    ∀ (fsolve : SolverFn) (func : ResidualFn) (pctMe T2 aInc x0 : ℝ),
      calc_pure fsolve func pctMe T2 aInc x0 order =
        .error (order, [0, 1, 2]) := by
  constructor
  · simp [Al_O_eqs, h0, h1, h2, Except.map]
  · intro fsolve func pctMe T2 aInc x0
    simp [calc_pure, h0, h1, h2]

/-- Witness for `invalid_order_rejected` at `order = 5`. -/
theorem invalid_order_rejected_witness :
    Al_O_eqs 1 (1, 1873, 1, 5) = .error (5, [0, 1, 2]) ∧
    ∀ (fsolve : SolverFn) (func : ResidualFn) (pctMe T2 aInc x0 : ℝ),
      calc_pure fsolve func pctMe T2 aInc x0 5 = .error (5, [0, 1, 2]) :=
  invalid_order_rejected 1 1 1873 1 5 (by decide) (by decide) (by decide)

/-- C3: whenever `data_deox` returns a curve, every oxygen entry is
either at most the caller-supplied bound or the NaN sentinel (`none`);
moreover each entry comes from the corresponding raw root: a root above
the bound becomes the sentinel (never a clamped value) and a root within
the bound is returned unchanged. -/
theorem data_deox_bound (fsolve : SolverFn) (func : ResidualFn) (T : ℝ)
    (pcts_M : List ℝ) (a_MxOy x0 : ℝ) (order : ℤ) (bound : ℝ)
    (ms : List ℝ) (os : List (Option ℝ))
    (h : data_deox fsolve func T pcts_M a_MxOy x0 order bound = .ok (ms, os)) :
    (∀ o ∈ os, o = none ∨ ∃ v, o = some v ∧ v ≤ bound) ∧
    ∃ raw, deoxLoop fsolve func T a_MxOy x0 order pcts_M = .ok raw ∧
      os.length = raw.length ∧
      ∀ i (hi : i < raw.length) (ho : i < os.length),
        (bound < raw.get ⟨i, hi⟩ → os.get ⟨i, ho⟩ = none) ∧
        (raw.get ⟨i, hi⟩ ≤ bound →
          os.get ⟨i, ho⟩ = some (raw.get ⟨i, hi⟩)) := by
  unfold data_deox at h
  cases hloop : deoxLoop fsolve func T a_MxOy x0 order pcts_M with
  | error e => rw [hloop] at h; exact absurd h (by simp [Except.map])
  | ok raw =>
    rw [hloop] at h
    simp only [Except.map, Except.ok.injEq, Prod.mk.injEq] at h
    obtain ⟨hms, hos⟩ := h
    subst hos
    constructor
    · intro o ho
      obtain ⟨wO, _, rfl⟩ := List.mem_map.mp ho
      by_cases hb : bound < wO
      · left; simp [hb]
      · right; exact ⟨wO, by simp [hb], le_of_not_lt hb⟩
    · refine ⟨raw, rfl, by simp, ?_⟩
      intro i hi ho
      simp only [List.get_eq_getElem, List.getElem_map]
      constructor
      · intro hgt
        simp [hgt]
      · intro hle
        simp [not_lt_of_le hle]


/-- Witness for `data_deox_bound`: a mock solver returning the aluminium
content itself as the root, grid `[0.5, 2]`, bound `1`; the first root
stays, the second becomes the sentinel. -/
theorem data_deox_bound_witness :
    (∀ o ∈ [some (0.5 : ℝ), none], o = none ∨ ∃ v, o = some v ∧ v ≤ (1 : ℝ)) ∧
    ∃ raw, deoxLoop (fun _ _ p => p.1) Al_O_eqs 1873 1 1e-8 2 [0.5, 2] = .ok raw ∧
      ([some (0.5 : ℝ), none] : List (Option ℝ)).length = raw.length ∧
      ∀ i (hi : i < raw.length)
        (ho : i < ([some (0.5 : ℝ), none] : List (Option ℝ)).length),
        ((1 : ℝ) < raw.get ⟨i, hi⟩ →
          ([some (0.5 : ℝ), none] : List (Option ℝ)).get ⟨i, ho⟩ = none) ∧
        (raw.get ⟨i, hi⟩ ≤ (1 : ℝ) →
          ([some (0.5 : ℝ), none] : List (Option ℝ)).get ⟨i, ho⟩ =
            some (raw.get ⟨i, hi⟩)) :=
  data_deox_bound (fun _ _ p => p.1) Al_O_eqs 1873 [0.5, 2] 1 1e-8 2 1
    [0.5, 2] [some 0.5, none]
    (by norm_num [data_deox, deoxLoop, calc_pure, Except.map, Except.bind])

end Deox

namespace EVGumbel

lemma eCDF_fst (ys : List ℚ) : (eCDF ys).1 = ys.insertionSort (· ≤ ·) := rfl

lemma eCDF_snd (ys : List ℚ) :
    (eCDF ys).2 = (List.range ys.length).map
      (fun i : ℕ => ((i : ℚ) + 1) / ((ys.length : ℚ) + 1)) := by
  show (List.range (ys.insertionSort (· ≤ ·)).length).map
      (fun i : ℕ => ((i : ℚ) + 1) /
        (((ys.insertionSort (· ≤ ·)).length : ℚ) + 1)) = _
  rw [List.length_insertionSort]

lemma eCDF_snd_length (ys : List ℚ) : (eCDF ys).2.length = ys.length := by
  rw [eCDF_snd, List.length_map, List.length_range]

lemma eCDF_snd_getElem (ys : List ℚ) (i : ℕ) (hi : i < ys.length) :
    ((eCDF ys).2)[i]? = some (((i : ℚ) + 1) / ((ys.length : ℚ) + 1)) := by
  rw [eCDF_snd, List.getElem?_map, List.getElem?_range hi]
  rfl

/-- C6: for a non-empty sample, `eCDF` returns the measurements sorted
ascending (a permutation of the input) together with the plotting
positions `P_i = i / (N+1)` (zero-indexed here: entry `i` is
`(i+1)/(N+1)`); the positions are strictly increasing, all lie in
`(0, 1)`, and the last one is `N / (N+1) < 1`. -/
theorem eCDF_spec (ys : List ℚ) (hne : ys ≠ []) (s p : List ℚ)
    (h : eCDF ys = (s, p)) :
    s.Perm ys ∧ s.Sorted (· ≤ ·) ∧ p.length = ys.length ∧
    (∀ i, i < ys.length →
      p[i]? = some (((i : ℚ) + 1) / ((ys.length : ℚ) + 1))) ∧
    p.Sorted (· < ·) ∧
    (∀ q ∈ p, 0 < q ∧ q < 1) ∧
    p[p.length - 1]? = some ((ys.length : ℚ) / ((ys.length : ℚ) + 1)) ∧
    (ys.length : ℚ) / ((ys.length : ℚ) + 1) < 1 := by
  have hs : s = (eCDF ys).1 := by rw [h]
  have hp : p = (eCDF ys).2 := by rw [h]
  subst hs hp
  have hN : 1 ≤ ys.length := List.length_pos.mpr hne
  refine ⟨?_, ?_, eCDF_snd_length ys, ?_, ?_, ?_, ?_, ?_⟩
  · rw [eCDF_fst]
    exact List.perm_insertionSort _ ys
  · rw [eCDF_fst]
    exact List.sorted_insertionSort _ ys
  · exact fun i hi => eCDF_snd_getElem ys i hi
  · rw [eCDF_snd]
    refine List.pairwise_map.mpr ?_
    refine List.Pairwise.imp ?_ (List.pairwise_lt_range ys.length)
    intro a b hab
    have h1 : ((a : ℚ) + 1) < ((b : ℚ) + 1) := by
      have : (a : ℚ) < b := by exact_mod_cast hab
      linarith
    exact (div_lt_div_iff_of_pos_right (by positivity)).mpr h1
  · rw [eCDF_snd]
    intro q hq
    obtain ⟨i, hir, rfl⟩ := List.mem_map.mp hq
    have hiN : i < ys.length := List.mem_range.mp hir
    refine ⟨by positivity, ?_⟩
    rw [div_lt_one (by positivity)]
    have : (i : ℚ) < ys.length := by exact_mod_cast hiN
    linarith
  · rw [eCDF_snd_length, eCDF_snd, List.getElem?_map,
      List.getElem?_range (by omega)]
    have hcast : ((ys.length - 1 : ℕ) : ℚ) = (ys.length : ℚ) - 1 := by
      push_cast [hN]
      ring
    simp only [Option.map_some']
    rw [hcast]
    congr 1
    ring
  · rw [div_lt_one (by positivity)]
    have : (0 : ℚ) ≤ (ys.length : ℚ) := by positivity
    linarith

/-- Witness for `eCDF_spec` on the sample `[3, 1, 2]`: sorted order
`[1, 2, 3]`, plotting positions `[1/4, 1/2, 3/4]`. -/
theorem eCDF_spec_witness :
    ([1, 2, 3] : List ℚ).Perm [3, 1, 2] ∧
    ([1, 2, 3] : List ℚ).Sorted (· ≤ ·) ∧
    ([1/4, 1/2, 3/4] : List ℚ).length = ([3, 1, 2] : List ℚ).length ∧
    (∀ i, i < ([3, 1, 2] : List ℚ).length →
      ([1/4, 1/2, 3/4] : List ℚ)[i]? =
        some (((i : ℚ) + 1) / ((([3, 1, 2] : List ℚ).length : ℚ) + 1))) ∧
    ([1/4, 1/2, 3/4] : List ℚ).Sorted (· < ·) ∧
    (∀ q ∈ ([1/4, 1/2, 3/4] : List ℚ), 0 < q ∧ q < 1) ∧
    ([1/4, 1/2, 3/4] : List ℚ)[([1/4, 1/2, 3/4] : List ℚ).length - 1]? =
      some ((([3, 1, 2] : List ℚ).length : ℚ) /
        ((([3, 1, 2] : List ℚ).length : ℚ) + 1)) ∧
    (([3, 1, 2] : List ℚ).length : ℚ) /
      ((([3, 1, 2] : List ℚ).length : ℚ) + 1) < 1 :=
  eCDF_spec [3, 1, 2] (by decide) [1, 2, 3] [1/4, 1/2, 3/4]
    (by norm_num [eCDF, List.insertionSort, List.orderedInsert,
      List.range_succ])

/-- C8: `calcSE` returns
`delta * √((1.109 + 0.514 y + 0.608 y²) / N)` with `y = (x - lamb) / delta`,
and at `x = lamb` it returns exactly `delta * √(1.109 / N)`. -/
theorem calcSE_spec (x lamb delta : ℝ) (N : ℕ)
    (hx : 0 < x) (hl : 0 < lamb) (hd : 0 < delta) (hN : 1 ≤ N) :
    calcSE x lamb delta N =
      delta * Real.sqrt ((1.109 + 0.514 * ((x - lamb) / delta) +
        0.608 * ((x - lamb) / delta) ^ 2) / (N : ℝ)) ∧
    calcSE lamb lamb delta N = delta * Real.sqrt (1.109 / (N : ℝ)) := by
  refine ⟨rfl, ?_⟩
  unfold calcSE
  norm_num

/-- Witness for `calcSE_spec` at `x = 2, lamb = 1, delta = 1, N = 24`. -/
theorem calcSE_spec_witness :
    calcSE 2 1 1 24 =
      1 * Real.sqrt ((1.109 + 0.514 * ((2 - 1) / 1) +
        0.608 * ((2 - 1) / 1) ^ 2) / ((24 : ℕ) : ℝ)) ∧
    calcSE 1 1 1 24 = 1 * Real.sqrt (1.109 / ((24 : ℕ) : ℝ)) :=
  calcSE_spec 2 1 1 24 (by norm_num) (by norm_num) (by norm_num) (by norm_num)

/-- Counterexample to C4: on the single-measurement sample `[40.29]`
(`N = 1 ≤ 1`), `fitEVmom` does not fail with an "insufficient data"
error — it has no error path at all — and returns `(NaN, NaN)`
(modelled as `(none, none)`): the pandas standard deviation of one
value is NaN and propagates into both parameters. -/
theorem fitEVmom_single_counterexample :
    ([(40.29 : ℚ)] : List ℚ).length ≤ 1 ∧
    fitEVmom [(40.29 : ℚ)] = (none, none) := by
  refine ⟨by decide, ?_⟩
  simp [fitEVmom, pstd]

/-- C4 amended: for every sample with fewer than two measurements,
`fitEVmom` raises no error and returns parameters that are both NaN
(`none`): the NaN sample standard deviation propagates through the
scale and location formulas. -/
theorem fitEVmom_small_sample_nan (ys : List ℚ) (h : ys.length ≤ 1) :
    fitEVmom ys = (none, none) := by
  have hstd : pstd ys = none := by
    unfold pstd
    rw [if_pos (by omega)]
  cases hm : pmean ys <;> simp [fitEVmom, hstd, hm]

/-- Witness for `fitEVmom_small_sample_nan` on the empty sample. -/
theorem fitEVmom_small_sample_nan_witness :
    ([] : List ℚ).length ≤ 1 ∧ fitEVmom ([] : List ℚ) = (none, none) :=
  ⟨by decide, fitEVmom_small_sample_nan [] (by decide)⟩

/-- C7: for every sample with at least two measurements, `fitEVmom`
returns scale `delta = s·√6/π` and location `lamb = mean - 0.5772·delta`
where `s` is the Bessel-corrected sample standard deviation, and
`delta > 0` whenever `s > 0`. -/
theorem fitEVmom_moments (ys : List ℚ) (h : 2 ≤ ys.length) :
    fitEVmom ys =
      (some (meanVal ys - 0.5772 * (stdVal ys * Real.sqrt 6 / Real.pi)),
       some (stdVal ys * Real.sqrt 6 / Real.pi)) ∧
    (0 < stdVal ys → 0 < stdVal ys * Real.sqrt 6 / Real.pi) := by
  constructor
  · have hm : pmean ys = some (meanVal ys) := by
      unfold pmean meanVal
      rw [if_neg (by omega)]
    have hs : pstd ys = some (stdVal ys) := by
      unfold pstd stdVal meanVal
      rw [if_neg (by omega)]
    simp [fitEVmom, hm, hs]
  · intro hstd
    have h6 : (0 : ℝ) < Real.sqrt 6 := Real.sqrt_pos.mpr (by norm_num)
    exact div_pos (mul_pos hstd h6) Real.pi_pos

lemma gumbelPlotRun_fit (ys : List ℚ) (mlfit : List ℚ → ℝ × ℝ)
    (lamb delta : ℝ) (hfit : mlfit ys = (lamb, delta)) :
    gumbelPlotRun ys none none mlfit =
      .ok ((eCDF ys).1.map (fun q : ℚ => (q : ℝ)),
        (eCDF ys).2.map (fun p : ℚ => -1.0 * Real.log (-Real.log (p : ℝ))),
        ((eCDF ys).2.map
          (fun p : ℚ => -1.0 * Real.log (-Real.log (p : ℝ)))).map
          (fun y => delta * y + lamb),
        List.zipWith (fun x s => x - 2.0 * s)
          (((eCDF ys).2.map
            (fun p : ℚ => -1.0 * Real.log (-Real.log (p : ℝ)))).map
            (fun y => delta * y + lamb))
          ((((eCDF ys).2.map
            (fun p : ℚ => -1.0 * Real.log (-Real.log (p : ℝ)))).map
            (fun y => delta * y + lamb)).map
            (fun x => calcSE x lamb delta ys.length)),
        List.zipWith (fun x s => x + 2.0 * s)
          (((eCDF ys).2.map
            (fun p : ℚ => -1.0 * Real.log (-Real.log (p : ℝ)))).map
            (fun y => delta * y + lamb))
          ((((eCDF ys).2.map
            (fun p : ℚ => -1.0 * Real.log (-Real.log (p : ℝ)))).map
            (fun y => delta * y + lamb)).map
            (fun x => calcSE x lamb delta ys.length))) := by
  unfold gumbelPlotRun
  rw [hfit]
  rfl

/-- C9: with the fitted parameters `(lamb, delta)`, the plot-geometry
builder produces, for each of the `N` sample points with empirical
probability `P_i = (i+1)/(N+1)`, the reduced variable
`y_i = -ln(-ln P_i)`, the distribution-implied value
`x_fit_i = delta·y_i + lamb`, and the band endpoints
`x_fit_i - 2·SE` and `x_fit_i + 2·SE` with `SE` evaluated at that
point. -/
theorem gumbelPlot_geometry (ys : List ℚ) (lamb delta : ℝ)
    (mlfit : List ℚ → ℝ × ℝ) (hfit : mlfit ys = (lamb, delta)) :
    ∃ xs rv xML xmin xmax,
      gumbelPlotRun ys none none mlfit = .ok (xs, rv, xML, xmin, xmax) ∧
      rv.length = ys.length ∧ xML.length = ys.length ∧
      xmin.length = ys.length ∧ xmax.length = ys.length ∧
      ∀ i, i < ys.length →
        rv[i]? = some (calcRedVar (((i : ℝ) + 1) / ((ys.length : ℝ) + 1))) ∧
        xML[i]? = some (delta *
          calcRedVar (((i : ℝ) + 1) / ((ys.length : ℝ) + 1)) + lamb) ∧
        xmin[i]? = some ((delta *
            calcRedVar (((i : ℝ) + 1) / ((ys.length : ℝ) + 1)) + lamb) -
          2.0 * calcSE (delta *
            calcRedVar (((i : ℝ) + 1) / ((ys.length : ℝ) + 1)) + lamb)
            lamb delta ys.length) ∧
        xmax[i]? = some ((delta *
            calcRedVar (((i : ℝ) + 1) / ((ys.length : ℝ) + 1)) + lamb) +
          2.0 * calcSE (delta *
            calcRedVar (((i : ℝ) + 1) / ((ys.length : ℝ) + 1)) + lamb)
            lamb delta ys.length) := by
  have hP : ∀ i : ℕ, i < ys.length →
      ((((i : ℚ) + 1) / ((ys.length : ℚ) + 1) : ℚ) : ℝ) =
        ((i : ℝ) + 1) / ((ys.length : ℝ) + 1) := by
    intro i _
    push_cast
    ring
  refine ⟨_, _, _, _, _, gumbelPlotRun_fit ys mlfit lamb delta hfit,
    ?_, ?_, ?_, ?_, ?_⟩
  · rw [List.length_map, eCDF_snd_length]
  · rw [List.length_map, List.length_map, eCDF_snd_length]
  · rw [List.zipWith_map_right, List.zipWith_same, List.length_map,
      List.length_map, List.length_map, eCDF_snd_length]
  · rw [List.zipWith_map_right, List.zipWith_same, List.length_map,
      List.length_map, List.length_map, eCDF_snd_length]
  · intro i hi
    have hrv : ((eCDF ys).2.map
        (fun p : ℚ => -1.0 * Real.log (-Real.log (p : ℝ))))[i]? =
        some (calcRedVar (((i : ℝ) + 1) / ((ys.length : ℝ) + 1))) := by
      rw [List.getElem?_map, eCDF_snd_getElem ys i hi, Option.map_some',
        calcRedVar, hP i hi]
    have hxml : (((eCDF ys).2.map
        (fun p : ℚ => -1.0 * Real.log (-Real.log (p : ℝ)))).map
        (fun y => delta * y + lamb))[i]? =
        some (delta * calcRedVar (((i : ℝ) + 1) / ((ys.length : ℝ) + 1)) +
          lamb) := by
      rw [List.getElem?_map, hrv, Option.map_some']
    refine ⟨hrv, hxml, ?_, ?_⟩
    · rw [List.zipWith_map_right, List.zipWith_same, List.getElem?_map,
        hxml, Option.map_some']
    · rw [List.zipWith_map_right, List.zipWith_same, List.getElem?_map,
        hxml, Option.map_some']

/-- Witness for `gumbelPlot_geometry` on the sample `[1, 2]` with the
mock maximum-likelihood fit returning `(3, 4)`. -/
theorem gumbelPlot_geometry_witness :
    ∃ xs rv xML xmin xmax,
      gumbelPlotRun [(1 : ℚ), 2] none none (fun _ => ((3 : ℝ), (4 : ℝ))) =
        .ok (xs, rv, xML, xmin, xmax) ∧
      rv.length = ([(1 : ℚ), 2] : List ℚ).length ∧
      xML.length = ([(1 : ℚ), 2] : List ℚ).length ∧
      xmin.length = ([(1 : ℚ), 2] : List ℚ).length ∧
      xmax.length = ([(1 : ℚ), 2] : List ℚ).length ∧
      ∀ i, i < ([(1 : ℚ), 2] : List ℚ).length →
        rv[i]? = some (calcRedVar (((i : ℝ) + 1) /
          ((([(1 : ℚ), 2] : List ℚ).length : ℝ) + 1))) ∧
        xML[i]? = some ((4 : ℝ) * calcRedVar (((i : ℝ) + 1) /
          ((([(1 : ℚ), 2] : List ℚ).length : ℝ) + 1)) + 3) ∧
        xmin[i]? = some (((4 : ℝ) * calcRedVar (((i : ℝ) + 1) /
            ((([(1 : ℚ), 2] : List ℚ).length : ℝ) + 1)) + 3) -
          2.0 * calcSE ((4 : ℝ) * calcRedVar (((i : ℝ) + 1) /
            ((([(1 : ℚ), 2] : List ℚ).length : ℝ) + 1)) + 3)
            3 4 ([(1 : ℚ), 2] : List ℚ).length) ∧
        xmax[i]? = some (((4 : ℝ) * calcRedVar (((i : ℝ) + 1) /
            ((([(1 : ℚ), 2] : List ℚ).length : ℝ) + 1)) + 3) +
          2.0 * calcSE ((4 : ℝ) * calcRedVar (((i : ℝ) + 1) /
            ((([(1 : ℚ), 2] : List ℚ).length : ℝ) + 1)) + 3)
            3 4 ([(1 : ℚ), 2] : List ℚ).length) :=
  gumbelPlot_geometry [(1 : ℚ), 2] 3 4 (fun _ => ((3 : ℝ), (4 : ℝ))) rfl

/-- C10: calling `gumbelPlot` with both a location (`gamma`) and a scale
(`delta`) argument skips the maximum-likelihood fit, after which the
never-assigned local `lamb` is read: the call fails with
`UnboundLocalError`, for every sample, every supplied pair, and every
fit routine (the fit is not invoked), and the supplied `gamma` never
influences the result. -/
theorem gumbelPlot_supplied_params_unbound (ys : List ℚ) (g d : ℝ)
    (mlfit : List ℚ → ℝ × ℝ) :
    gumbelPlotRun ys (some g) (some d) mlfit =
      .error
        "UnboundLocalError: local variable lamb referenced before assignment" ∧
    (∀ g2 : ℝ, gumbelPlotRun ys (some g) (some d) mlfit =
      gumbelPlotRun ys (some g2) (some d) mlfit) ∧
    (∀ mlfit2 : List ℚ → ℝ × ℝ, gumbelPlotRun ys (some g) (some d) mlfit =
      gumbelPlotRun ys (some g) (some d) mlfit2) := by
  refine ⟨rfl, fun g2 => rfl, fun mlfit2 => rfl⟩

/-- Witness for `fitEVmom_moments` on the two-point sample `[1, 3]`. -/
theorem fitEVmom_moments_witness :
    fitEVmom [(1 : ℚ), 3] =
      (some (meanVal [(1 : ℚ), 3] -
         0.5772 * (stdVal [(1 : ℚ), 3] * Real.sqrt 6 / Real.pi)),
       some (stdVal [(1 : ℚ), 3] * Real.sqrt 6 / Real.pi)) ∧
    (0 < stdVal [(1 : ℚ), 3] →
      0 < stdVal [(1 : ℚ), 3] * Real.sqrt 6 / Real.pi) :=
  fitEVmom_moments [(1 : ℚ), 3] (by decide)

end EVGumbel
